import Mathlib

/-!
Verification of the task-list store in src/vscode/index.tsx.

The component state consists of five React useState cells: the todo list,
the pending input text, the id of the task being edited (or null), the edit
draft text, and the current filter. We embed them as one record and each
handler as a pure state transformer. JavaScript strings become Lean strings;
the JS trim used for emptiness checks becomes String.trim; Date.now() becomes
an explicit Nat argument supplied by the environment at each add.
-/

namespace TodoApp

/-- One todo record, as produced by addTodo and the seed literals. -/
structure Task where
  id : String
  title : String
  completed : Bool
deriving DecidableEq, Repr

/-- The three values of the filter state cell. -/
inductive Filter where
  | all
  | completed
  | uncompleted
deriving DecidableEq, Repr

/-- The five useState cells of the App component. -/
structure AppState where
  todos : List Task
  inputText : String
  editingId : Option String
  editText : String
  filter : Filter
deriving DecidableEq, Repr

/-- The initial values of the five useState cells. -/
def initialState : AppState :=
  { todos := [
      { id := "1", title := "wash dishes", completed := false },
      { id := "2", title := "edit-resume", completed := false },
      { id := "3", title := "finish Codedex course", completed := false },
      { id := "4", title := "Then sleep", completed := false } ],
    inputText := "",
    editingId := none,
    editText := "",
    filter := Filter.all }

/-- The setInputText state setter, driven by onChangeText of the add input. -/
def setInputText (t : String) (s : AppState) : AppState :=
  { s with inputText := t }

/-- The setEditText state setter, driven by onChangeText of the edit input. -/
def setEditText (t : String) (s : AppState) : AppState :=
  { s with editText := t }

/-- The setFilter state setter, driven by the three filter buttons. -/
def setFilter (f : Filter) (s : AppState) : AppState :=
  { s with filter := f }

/-- JavaScript String.prototype.trim: drop whitespace characters from both
ends of the string. Stated over the character list of the string so that it
evaluates by kernel reduction. -/
def jsTrim (s : String) : String :=
  ⟨(((s.data.dropWhile Char.isWhitespace).reverse).dropWhile Char.isWhitespace).reverse⟩

/-- addTodo: reject when the trimmed input is empty; otherwise prepend a new
task whose id is Date.now().toString() (the timestamp is the now argument),
whose title is the untrimmed input text, completed false; then clear the
input field. -/
def addTodo (now : Nat) (s : AppState) : AppState :=
  if (jsTrim s.inputText).length = 0 then s
  else
    { s with
      todos := { id := toString now, title := s.inputText, completed := false } :: s.todos,
      inputText := "" }

/-- The per-element function of the map inside toggleTodo. -/
def toggleFn (id : String) (todo : Task) : Task :=
  if todo.id = id then { todo with completed := !todo.completed } else todo

/-- toggleTodo: flip the completed flag of the task whose id matches. -/
def toggleTodo (id : String) (s : AppState) : AppState :=
  { s with todos := s.todos.map (toggleFn id) }

/-- deleteTodo: drop the task with the given id; if that task was being
edited, also clear the edit state. -/
def deleteTodo (id : String) (s : AppState) : AppState :=
  let s1 : AppState := { s with todos := s.todos.filter (fun todo => todo.id != id) }
  if s.editingId = some id then { s1 with editingId := none, editText := "" } else s1

/-- startEditing: enter edit mode for the given id, prefilling the draft. -/
def startEditing (id : String) (title : String) (s : AppState) : AppState :=
  { s with editingId := some id, editText := title }

/-- saveEdit: reject when the trimmed draft is empty; otherwise retitle the
task whose id equals editingId (a null editingId matches no task, as the JS
strict equality against a string is then false) and leave edit mode,
clearing the draft. -/
def saveEdit (s : AppState) : AppState :=
  if (jsTrim s.editText).length = 0 then s
  else
    { s with
      todos := s.todos.map (fun todo =>
        if s.editingId = some todo.id then { todo with title := s.editText } else todo),
      editingId := none,
      editText := "" }

/-- cancelEdit: leave edit mode, discarding the draft. -/
def cancelEdit (s : AppState) : AppState :=
  { s with editingId := none, editText := "" }

/-- The record returned by getStats. -/
structure Stats where
  total : Nat
  completed : Nat
  uncompleted : Nat
deriving DecidableEq, Repr

/-- getStats: total count, completed count, and their difference. -/
def getStats (s : AppState) : Stats :=
  { total := s.todos.length,
    completed := (s.todos.filter (fun t => t.completed)).length,
    uncompleted := s.todos.length - (s.todos.filter (fun t => t.completed)).length }

/-- getFilteredTodos: the switch on the filter state cell. -/
def getFilteredTodos (s : AppState) : List Task :=
  match s.filter with
  | Filter.completed => s.todos.filter (fun todo => todo.completed)
  | Filter.uncompleted => s.todos.filter (fun todo => !todo.completed)
  | Filter.all => s.todos

/-- One user interaction, as wired in the rendered component. Typing in the
edit input and starting an edit are only possible when the corresponding
widget is rendered: the edit input exists only while some task is in edit
mode, and the Edit button exists only on a row of the currently visible
list. Every other handler is modelled as always available. -/
inductive Step : AppState → AppState → Prop where
  | typeInput (s : AppState) (t : String) : Step s (setInputText t s)
  | pressAdd (s : AppState) (now : Nat) : Step s (addTodo now s)
  | pressToggle (s : AppState) (id : String) : Step s (toggleTodo id s)
  | pressDelete (s : AppState) (id : String) : Step s (deleteTodo id s)
  | pressEdit (s : AppState) (item : Task) (h : item ∈ getFilteredTodos s) :
      Step s (startEditing item.id item.title s)
  | typeDraft (s : AppState) (t : String) (h : s.editingId ≠ none) :
      Step s (setEditText t s)
  | pressSave (s : AppState) : Step s (saveEdit s)
  | pressCancel (s : AppState) : Step s (cancelEdit s)
  | pressFilter (s : AppState) (f : Filter) : Step s (setFilter f s)

/-- States reachable from the initial render by user interactions. -/
inductive Reachable : AppState → Prop where
  | init : Reachable initialState
  | step {s s' : AppState} : Reachable s → Step s s' → Reachable s'

/-- The session invariant: an empty edit target means an empty draft, and a
set edit target always names a task present in the list. -/
def Inv (s : AppState) : Prop :=
  (s.editingId = none → s.editText = "") ∧
  (∀ i, s.editingId = some i → ∃ t ∈ s.todos, t.id = i)

/-- Every element of the filtered projection is a stored task. -/
theorem mem_todos_of_mem_filtered {s : AppState} {t : Task}
    (h : t ∈ getFilteredTodos s) : t ∈ s.todos := by
  unfold getFilteredTodos at h
  split at h
  · exact List.mem_of_mem_filter h
  · exact List.mem_of_mem_filter h
  · exact h

/-- The toggle map function preserves the id field. -/
theorem toggleFn_id (i : String) (t : Task) : (toggleFn i t).id = t.id := by
  unfold toggleFn
  split <;> rfl

/-- The toggle map function preserves the title field. -/
theorem toggleFn_title (i : String) (t : Task) : (toggleFn i t).title = t.title := by
  unfold toggleFn
  split <;> rfl

/-- The toggle map function is an involution. -/
theorem toggleFn_invol (i : String) (t : Task) : toggleFn i (toggleFn i t) = t := by
  obtain ⟨tid, ttl, tc⟩ := t
  unfold toggleFn
  by_cases hc : tid = i
  · simp [hc]
  · simp [hc]

/-- Mapping a function that fixes every member of a list is the identity. -/
theorem map_fix {α : Type} {l : List α} {f : α → α} (h : ∀ a ∈ l, f a = a) :
    l.map f = l := by
  induction l with
  | nil => rfl
  | cons a t ih =>
    rw [List.map_cons, h a (List.mem_cons_self a t),
      ih fun x hx => h x (List.mem_cons_of_mem a hx)]

/-- One interaction step preserves the session invariant. -/
theorem inv_step {s s' : AppState} (hInv : Inv s) (hs : Step s s') : Inv s' := by
  cases hs with
  | typeInput t => exact hInv
  | pressAdd now =>
    unfold addTodo
    split
    · exact hInv
    · refine ⟨fun hn => hInv.1 hn, fun i hi => ?_⟩
      obtain ⟨t, ht, hti⟩ := hInv.2 i hi
      exact ⟨t, List.mem_cons_of_mem _ ht, hti⟩
  | pressToggle id =>
    refine ⟨fun hn => hInv.1 hn, fun i hi => ?_⟩
    obtain ⟨t, ht, hti⟩ := hInv.2 i hi
    exact ⟨toggleFn id t, List.mem_map_of_mem _ ht, (toggleFn_id id t).trans hti⟩
  | pressDelete id =>
    simp only [deleteTodo]
    split
    · exact ⟨fun _ => rfl, fun i hi => Option.noConfusion hi⟩
    · case isFalse h =>
        refine ⟨fun hn => hInv.1 hn, fun i hi => ?_⟩
        obtain ⟨t, ht, hti⟩ := hInv.2 i hi
        refine ⟨t, List.mem_filter.mpr ⟨ht, ?_⟩, hti⟩
        refine bne_iff_ne.mpr ?_
        rw [hti]
        intro he
        rw [he] at hi
        exact h hi
  | pressEdit item hmem =>
    refine ⟨fun hn => Option.noConfusion hn, fun i hi => ?_⟩
    exact ⟨item, mem_todos_of_mem_filtered hmem, Option.some.inj hi⟩
  | typeDraft t hguard =>
    exact ⟨fun hn => absurd hn hguard, hInv.2⟩
  | pressSave =>
    unfold saveEdit
    split
    · exact hInv
    · exact ⟨fun _ => rfl, fun i hi => Option.noConfusion hi⟩
  | pressCancel =>
    exact ⟨fun _ => rfl, fun i hi => Option.noConfusion hi⟩
  | pressFilter f =>
    exact hInv

/-- Every reachable state satisfies the session invariant. -/
theorem reachable_inv {s : AppState} (h : Reachable s) : Inv s := by
  induction h with
  | init => exact ⟨fun _ => rfl, fun i hi => Option.noConfusion hi⟩
  | step _ hs ih => exact inv_step ih hs

/-- deleteTodo never leaves the deleted id as the edit target. -/
theorem deleteTodo_editingId_ne (i : String) (s : AppState) :
    (deleteTodo i s).editingId ≠ some i := by
  simp only [deleteTodo]
  split
  · exact fun h => Option.noConfusion h
  · case isFalse h => exact h

/-- The task list after deleteTodo is the filtered task list. -/
theorem deleteTodo_todos (i : String) (s : AppState) :
    (deleteTodo i s).todos = s.todos.filter (fun todo => todo.id != i) := by
  simp only [deleteTodo]
  split <;> rfl

/-- deleteTodo is the identity when the id is neither stored nor edited. -/
theorem deleteTodo_noop (i : String) (s : AppState)
    (h1 : s.editingId ≠ some i) (h2 : ∀ t ∈ s.todos, t.id ≠ i) :
    deleteTodo i s = s := by
  simp only [deleteTodo]
  rw [if_neg h1]
  have hf : s.todos.filter (fun todo => todo.id != i) = s.todos :=
    List.filter_eq_self.mpr fun a ha => bne_iff_ne.mpr (h2 a ha)
  rw [hf]

/-- toggleTodo is the identity when no stored task has the id. -/
theorem toggleTodo_noop (i : String) (s : AppState)
    (h : ∀ t ∈ s.todos, t.id ≠ i) : toggleTodo i s = s := by
  have hm : s.todos.map (toggleFn i) = s.todos := by
    refine map_fix fun a ha => ?_
    unfold toggleFn
    rw [if_neg (h a ha)]
  simp only [toggleTodo]
  rw [hm]

/-- Claim C1: when the trimmed input is non-empty, addTodo prepends a task
whose title is the untrimmed original text with completed false and clears
the pending input, leaving the other state cells unchanged; when the
trimmed input is empty, addTodo leaves the whole state unchanged. -/
theorem add_prepends_or_noop (s : AppState) (now : Nat) (text : String)
    (h : s.inputText = text) :
    ((jsTrim text).length ≠ 0 →
      addTodo now s =
        { s with
          todos := { id := toString now, title := text, completed := false } :: s.todos,
          inputText := "" }) ∧
    ((jsTrim text).length = 0 → addTodo now s = s) := by
  subst h
  unfold addTodo
  constructor
  · intro hne
    rw [if_neg hne]
  · intro he
    rw [if_pos he]

/-- Witness for claim C1 at the input text "  hi  " and timestamp 42. -/
theorem add_prepends_or_noop_witness :
    (jsTrim "  hi  ").length ≠ 0 ∧
    addTodo 42 (setInputText "  hi  " initialState) =
      { setInputText "  hi  " initialState with
        todos := { id := toString 42, title := "  hi  ", completed := false } ::
          (setInputText "  hi  " initialState).todos,
        inputText := "" } :=
  ⟨by decide,
   (add_prepends_or_noop (setInputText "  hi  " initialState) 42 "  hi  " rfl).1 (by decide)⟩

/-- Claim C2: in every reachable state whose edit target is unset, saveEdit
changes nothing at all. -/
theorem commitEdit_noop_when_not_editing (s : AppState) (hr : Reachable s)
    (h : s.editingId = none) : saveEdit s = s := by
  have he : s.editText = "" := (reachable_inv hr).1 h
  unfold saveEdit
  rw [he]
  split
  · rfl
  · case isFalse h2 => exact absurd (by decide) h2

/-- Witness for claim C2 at the initial state. -/
theorem commitEdit_noop_when_not_editing_witness :
    initialState.editingId = none ∧ saveEdit initialState = initialState :=
  ⟨rfl, commitEdit_noop_when_not_editing initialState Reachable.init rfl⟩

/-- Claim C3 fails on the code: two adds both performed while Date.now()
returns 1760140800000 (the same millisecond) reach a state in which two
tasks carry the id "1760140800000", so the id column is not duplicate-free. -/
theorem duplicate_id_same_millisecond :
    Reachable (addTodo 1760140800000 (setInputText "second task"
      (addTodo 1760140800000 (setInputText "first task" initialState)))) ∧
    ¬ ((addTodo 1760140800000 (setInputText "second task"
      (addTodo 1760140800000 (setInputText "first task" initialState)))).todos.map
        Task.id).Nodup :=
  ⟨Reachable.step (Reachable.step (Reachable.step (Reachable.step Reachable.init
      (Step.typeInput _ "first task")) (Step.pressAdd _ 1760140800000))
      (Step.typeInput _ "second task")) (Step.pressAdd _ 1760140800000),
   by decide⟩

/-- Claim C4: saveEdit with a set edit target but an empty trimmed draft
saves nothing and stays in edit mode on the same task. -/
theorem commitEdit_empty_draft_noop (s : AppState) (i : String)
    (h1 : s.editingId = some i) (h2 : (jsTrim s.editText).length = 0) :
    saveEdit s = s ∧ (saveEdit s).editingId = some i ∧ (saveEdit s).todos = s.todos := by
  have hs : saveEdit s = s := by
    unfold saveEdit
    rw [if_pos h2]
  exact ⟨hs, by rw [hs, h1], by rw [hs]⟩

/-- Witness for claim C4: editing task "1" with the draft forced empty. -/
theorem commitEdit_empty_draft_noop_witness :
    saveEdit (setEditText "" (startEditing "1" "wash dishes" initialState)) =
      setEditText "" (startEditing "1" "wash dishes" initialState) ∧
    (saveEdit (setEditText "" (startEditing "1" "wash dishes" initialState))).editingId =
      some "1" := by
  have h := commitEdit_empty_draft_noop
    (setEditText "" (startEditing "1" "wash dishes" initialState)) "1" rfl (by decide)
  exact ⟨h.1, h.2.1⟩

/-- Claim C5: in every reachable state a set edit target names a stored
task, and deleting the task being edited clears the edit target and draft
in the same step while removing every task with that id. -/
theorem editing_target_exists_and_delete_clears (s : AppState) (hr : Reachable s) :
    (∀ i, s.editingId = some i → ∃ t ∈ s.todos, t.id = i) ∧
    (∀ i, s.editingId = some i →
      (deleteTodo i s).editingId = none ∧ (deleteTodo i s).editText = "" ∧
      ∀ t ∈ (deleteTodo i s).todos, t.id ≠ i) := by
  refine ⟨(reachable_inv hr).2, fun i hi => ?_⟩
  simp only [deleteTodo]
  rw [if_pos hi]
  refine ⟨rfl, rfl, fun t ht => ?_⟩
  have ht2 : t ∈ s.todos.filter (fun todo => todo.id != i) := ht
  exact bne_iff_ne.mp (List.mem_filter.mp ht2).2

/-- Witness for claim C5: delete task "1" while it is being edited. -/
theorem editing_target_exists_and_delete_clears_witness :
    (deleteTodo "1" (startEditing "1" "wash dishes" initialState)).editingId = none ∧
    (deleteTodo "1" (startEditing "1" "wash dishes" initialState)).editText = "" := by
  have h := (editing_target_exists_and_delete_clears
    (startEditing "1" "wash dishes" initialState)
    (Reachable.step Reachable.init (Step.pressEdit initialState
      { id := "1", title := "wash dishes", completed := false } (by decide)))).2 "1" rfl
  exact ⟨h.1, h.2.1⟩

/-- Claim C6: toggling the same id twice restores the whole state, and one
toggle keeps the order, the ids, and the titles of the tasks. -/
theorem toggle_involution (s : AppState) (i : String)
    (h : ∃ t ∈ s.todos, t.id = i) :
    toggleTodo i (toggleTodo i s) = s ∧
    (toggleTodo i s).todos.map Task.id = s.todos.map Task.id ∧
    (toggleTodo i s).todos.map Task.title = s.todos.map Task.title := by
  refine ⟨?_, ?_, ?_⟩
  · have hm : (s.todos.map (toggleFn i)).map (toggleFn i) = s.todos := by
      rw [List.map_map]
      exact map_fix fun a _ => toggleFn_invol i a
    simp only [toggleTodo]
    rw [hm]
  · simp only [toggleTodo]
    rw [List.map_map]
    exact List.map_congr_left fun a _ => toggleFn_id i a
  · simp only [toggleTodo]
    rw [List.map_map]
    exact List.map_congr_left fun a _ => toggleFn_title i a

/-- Witness for claim C6 at the stored id "1". -/
theorem toggle_involution_witness :
    toggleTodo "1" (toggleTodo "1" initialState) = initialState :=
  (toggle_involution initialState "1" (by decide)).1

/-- Claim C7: deleting an id twice equals deleting it once, and in any
reachable state toggle and delete on an id with no matching task leave the
state untouched. -/
theorem remove_idempotent_and_missing_noop (s : AppState) (i : String) :
    deleteTodo i (deleteTodo i s) = deleteTodo i s ∧
    (Reachable s → (∀ t ∈ s.todos, t.id ≠ i) →
      toggleTodo i s = s ∧ deleteTodo i s = s) := by
  constructor
  · refine deleteTodo_noop i (deleteTodo i s) (deleteTodo_editingId_ne i s) fun t ht => ?_
    rw [deleteTodo_todos] at ht
    exact bne_iff_ne.mp (List.mem_filter.mp ht).2
  · intro hr habs
    refine ⟨toggleTodo_noop i s habs, deleteTodo_noop i s ?_ habs⟩
    intro he
    obtain ⟨t, ht, hti⟩ := (reachable_inv hr).2 i he
    exact habs t ht hti

/-- Witness for claim C7 at the absent id "99" in the initial state. -/
theorem remove_idempotent_and_missing_noop_witness :
    toggleTodo "99" initialState = initialState ∧
    deleteTodo "99" initialState = initialState :=
  (remove_idempotent_and_missing_noop initialState "99").2 Reachable.init (by decide)

/-- Claim C8: in every state the completed and pending counters of getStats
sum to the total, the total is the number of tasks, and the completed
counter counts the tasks whose completed flag is set. -/
theorem stats_counters_sum (s : AppState) :
    (getStats s).completed + (getStats s).uncompleted = (getStats s).total ∧
    (getStats s).total = s.todos.length ∧
    (getStats s).completed = (s.todos.filter (fun t => t.completed)).length :=
  ⟨Nat.add_sub_cancel' (List.length_filter_le _ s.todos), rfl, rfl⟩

/-- Claim C9: the filtered projection returns the whole list under the all
filter; under the completed (respectively uncompleted) filter it returns
exactly the tasks whose completed flag is true (respectively false), as a
sublist of the store, hence in store order. -/
theorem filtered_projection (s : AppState) :
    (s.filter = Filter.all → getFilteredTodos s = s.todos) ∧
    (s.filter = Filter.completed →
      getFilteredTodos s = s.todos.filter (fun todo => todo.completed) ∧
      (∀ t, t ∈ getFilteredTodos s ↔ t ∈ s.todos ∧ t.completed = true) ∧
      List.Sublist (getFilteredTodos s) s.todos) ∧
    (s.filter = Filter.uncompleted →
      getFilteredTodos s = s.todos.filter (fun todo => !todo.completed) ∧
      (∀ t, t ∈ getFilteredTodos s ↔ t ∈ s.todos ∧ t.completed = false) ∧
      List.Sublist (getFilteredTodos s) s.todos) := by
  refine ⟨fun hf => ?_, fun hf => ?_, fun hf => ?_⟩
  · simp only [getFilteredTodos, hf]
  · have hg : getFilteredTodos s = s.todos.filter (fun todo => todo.completed) := by
      simp only [getFilteredTodos, hf]
    refine ⟨hg, fun t => ?_, ?_⟩
    · rw [hg, List.mem_filter]
    · rw [hg]
      exact List.filter_sublist _
  · have hg : getFilteredTodos s = s.todos.filter (fun todo => !todo.completed) := by
      simp only [getFilteredTodos, hf]
    refine ⟨hg, fun t => ?_, ?_⟩
    · rw [hg, List.mem_filter, Bool.not_eq_true']
    · rw [hg]
      exact List.filter_sublist _

/-- Witness for claim C9 at the initial state, whose filter is all. -/
theorem filtered_projection_witness :
    getFilteredTodos initialState = initialState.todos :=
  (filtered_projection initialState).1 rfl

/-- Claim C10: before any user action the store already holds exactly the
four seed tasks with ids "1" through "4", none of them completed, so the
total counter starts at 4. -/
theorem initial_state_seeded :
    initialState.todos.map Task.id = ["1", "2", "3", "4"] ∧
    initialState.todos.map Task.completed = [false, false, false, false] ∧
    initialState.todos.length = 4 ∧
    (getStats initialState).total = 4 ∧
    initialState.todos = [
      { id := "1", title := "wash dishes", completed := false },
      { id := "2", title := "edit-resume", completed := false },
      { id := "3", title := "finish Codedex course", completed := false },
      { id := "4", title := "Then sleep", completed := false } ] :=
  ⟨rfl, rfl, rfl, rfl, rfl⟩

end TodoApp
